import Mathlib

/-!
Shallow embedding of the Aegis crypto-engine logic core (the `LogicEngine`
module): volatility scoring, signal detection, ticker analysis, top-gainer
ranking, signal diffing and the `processData` pipeline, together with
theorems settling the specification claims about them.
-/

/-- A JavaScript number as the logic engine uses it: either NaN or a rational
value.  All arithmetic the engine performs on its inputs (absolute value,
division by the constants 10/5/2, multiplication by 100/70/30, rounding,
min/max, threshold comparisons) is exact on rationals, so rationals stand in
for IEEE doubles; NaN is tracked explicitly because the source relies on
JavaScript NaN semantics (every comparison with NaN is false, and arithmetic
as well as `Math.min`/`Math.max`/`Math.round` propagate NaN). -/
inductive JSNum where
  | nan : JSNum
  | num : ℚ → JSNum
deriving DecidableEq

/-- Absolute value of a rational, by an executable comparison. -/
def qabs (q : ℚ) : ℚ := if q < 0 then -q else q

/-- `Math.abs`: NaN propagates. -/
def jabs : JSNum → JSNum
  | .nan => .nan
  | .num q => .num (qabs q)

/-- JavaScript multiplication restricted to the engine's use: NaN propagates. -/
def jmul : JSNum → JSNum → JSNum
  | .num a, .num b => .num (a * b)
  | _, _ => .nan

/-- JavaScript division restricted to the engine's use (every divisor in the
engine is one of the nonzero constants 10, 5, 2): NaN propagates. -/
def jdiv : JSNum → JSNum → JSNum
  | .num a, .num b => .num (a / b)
  | _, _ => .nan

/-- Minimum of two rationals, by an executable comparison. -/
def qmin (a b : ℚ) : ℚ := if a ≤ b then a else b

/-- Maximum of two rationals, by an executable comparison. -/
def qmax (a b : ℚ) : ℚ := if a ≤ b then b else a

/-- `Math.round`: round half toward positive infinity; NaN propagates.
`Rat.floor` is used (rather than `Int.floor`) so that the kernel can
evaluate the definition; the two agree (`Rat.floor_def`). -/
def jround : JSNum → JSNum
  | .nan => .nan
  | .num q => .num (((q + 1/2).floor : ℤ) : ℚ)

/-- `Math.min` of two arguments: NaN if either argument is NaN. -/
def jmin : JSNum → JSNum → JSNum
  | .num a, .num b => .num (qmin a b)
  | _, _ => .nan

/-- `Math.max` of two arguments: NaN if either argument is NaN. -/
def jmax : JSNum → JSNum → JSNum
  | .num a, .num b => .num (qmax a b)
  | _, _ => .nan

/-- JavaScript `<`: false whenever either side is NaN. -/
def jltb : JSNum → JSNum → Bool
  | .num a, .num b => decide (a < b)
  | _, _ => false

/-- JavaScript `>`: false whenever either side is NaN. -/
def jgtb (a b : JSNum) : Bool := jltb b a

/-- JavaScript `>=`: false whenever either side is NaN. -/
def jgeb : JSNum → JSNum → Bool
  | .num a, .num b => decide (b ≤ a)
  | _, _ => false

/-- The volatility level string: `low`, `medium` or `high`. -/
inductive VolLevel where
  | low : VolLevel
  | medium : VolLevel
  | high : VolLevel
deriving DecidableEq

/-- The `{ score, level }` object returned by `calculateVolatilityScore`. -/
structure VolatilityResult where
  score : JSNum
  level : VolLevel
deriving DecidableEq

/-- CONFIG.VOLATILITY_HIGH_THRESHOLD -/
def VOLATILITY_HIGH_THRESHOLD : JSNum := .num 5
/-- CONFIG.VOLATILITY_MEDIUM_THRESHOLD -/
def VOLATILITY_MEDIUM_THRESHOLD : JSNum := .num 2
/-- CONFIG.WHALE_THRESHOLD_PRICE_CHANGE -/
def WHALE_THRESHOLD_PRICE_CHANGE : JSNum := .num 3
/-- CONFIG.WHALE_THRESHOLD_VOLUME -/
def WHALE_THRESHOLD_VOLUME : JSNum := .num 1000000
/-- CONFIG.PANIC_THRESHOLD_PRICE_CHANGE -/
def PANIC_THRESHOLD_PRICE_CHANGE : JSNum := .num (-3)

/-- Embedding of `calculateVolatilityScore` from the logic engine:

    const absChange = Math.abs(priceChangePercent);
    if (absChange >= 5)      score = Math.min(100, Math.round(absChange/10*100)), level = 'high'
    else if (absChange >= 2) score = Math.round(absChange/5*70),               level = 'medium'
    else                     score = Math.round(absChange/2*30),               level = 'low'
    return { score: Math.min(100, Math.max(0, score)), level }
-/
def calculateVolatilityScore (priceChangePercent : JSNum) : VolatilityResult :=
  let absChange := jabs priceChangePercent
  let raw : JSNum × VolLevel :=
    if jgeb absChange VOLATILITY_HIGH_THRESHOLD then
      (jmin (.num 100) (jround (jmul (jdiv absChange (.num 10)) (.num 100))), .high)
    else if jgeb absChange VOLATILITY_MEDIUM_THRESHOLD then
      (jround (jmul (jdiv absChange VOLATILITY_HIGH_THRESHOLD) (.num 70)), .medium)
    else
      (jround (jmul (jdiv absChange VOLATILITY_MEDIUM_THRESHOLD) (.num 30)), .low)
  { score := jmin (.num 100) (jmax (.num 0) raw.1), level := raw.2 }


/-- The signal type strings of `SIGNAL_TYPES`. -/
inductive SignalType where
  | WHALE_ACTIVITY : SignalType
  | PANIC_SELL : SignalType
  | NEUTRAL : SignalType
deriving DecidableEq

/-- The `{ type, message, priority }` object returned by `detectSignal`. -/
structure SignalResult where
  type : SignalType
  message : String
  priority : String
deriving DecidableEq

/-- A raw ticker record as the logic engine consumes it.  The source receives
every numeric field as text and applies `parseFloat` to it; here each numeric
field holds the result of that parse directly (`JSNum.nan` for a malformed
field), so `parseFloat` is the identity on these fields. -/
structure RawTicker where
  symbol : String
  lastPrice : JSNum
  priceChange : JSNum
  priceChangePercent : JSNum
  volume : JSNum
  quoteVolume : JSNum
  highPrice : JSNum
  lowPrice : JSNum
deriving DecidableEq

/-- Embedding of `detectSignal` from the logic engine:

    if (priceChangePercent > 3 && volume > 1000000) return WHALE_ACTIVITY/high
    if (priceChangePercent < -3)                    return PANIC_SELL/high
    return NEUTRAL/low
-/
def detectSignal (tickerData : RawTicker) : SignalResult :=
  let priceChangePercent := tickerData.priceChangePercent
  let volume := tickerData.quoteVolume
  if jgtb priceChangePercent WHALE_THRESHOLD_PRICE_CHANGE &&
      jgtb volume WHALE_THRESHOLD_VOLUME then
    ⟨.WHALE_ACTIVITY, "WHALE ACTIVITY - Strong Buy Signal", "high"⟩
  else if jltb priceChangePercent PANIC_THRESHOLD_PRICE_CHANGE then
    ⟨.PANIC_SELL, "PANIC SELL - Market Downturn", "high"⟩
  else
    ⟨.NEUTRAL, "Normal Market Activity", "low"⟩

/-- JavaScript `String.prototype.replace` with a string pattern and the empty
replacement, as in `symbol.replace('USDT', '')`: removes the first (leftmost)
occurrence of `pat` and leaves the string unchanged when `pat` does not occur. -/
def replaceFirst (pat : List Char) : List Char → List Char
  | [] => []
  | c :: rest =>
    if pat.isPrefixOf (c :: rest) then (c :: rest).drop pat.length
    else c :: replaceFirst pat rest

/-- The analyzed record built by `analyzeTicker`. -/
structure EnrichedTicker where
  symbol : String
  baseAsset : String
  price : JSNum
  priceChange : JSNum
  priceChangePercent : JSNum
  volume : JSNum
  quoteVolume : JSNum
  highPrice : JSNum
  lowPrice : JSNum
  volatility : VolatilityResult
  signal : SignalResult
  raw : RawTicker
deriving DecidableEq

/-- Embedding of `analyzeTicker`: parses the numeric fields (already reflected
in the `RawTicker` fields), computes volatility and signal, and derives
`baseAsset` as `symbol.replace('USDT', '')`. -/
def analyzeTicker (tickerData : RawTicker) : EnrichedTicker :=
  let priceChangePercent := tickerData.priceChangePercent
  let volatility := calculateVolatilityScore priceChangePercent
  let signal := detectSignal tickerData
  { symbol := tickerData.symbol
    baseAsset := (replaceFirst "USDT".toList tickerData.symbol.toList).asString
    price := tickerData.lastPrice
    priceChange := tickerData.priceChange
    priceChangePercent := priceChangePercent
    volume := tickerData.volume
    quoteVolume := tickerData.quoteVolume
    highPrice := tickerData.highPrice
    lowPrice := tickerData.lowPrice
    volatility := volatility
    signal := signal
    raw := tickerData }

/-- Embedding of `analyzeTickerArray`: `tickerDataArray.map(analyzeTicker)`. -/
def analyzeTickerArray (tickerDataArray : List RawTicker) : List EnrichedTicker :=
  tickerDataArray.map analyzeTicker

/-- The rational value of a `JSNum`, defaulting NaN to 0.  Used only as the
sort key model inside `getTopGainers`, where NaN is unreachable: the sort runs
after the `> 0` filter, which no NaN passes. -/
def toQ : JSNum → ℚ
  | .nan => 0
  | .num q => q

/-- The comparator `(a, b) => b.priceChangePercent - a.priceChangePercent`
passed to `Array.prototype.sort`, as the ordering it induces: `a` may come
before `b` exactly when the comparator is nonpositive.  JavaScript's sort is
specified to be stable, which `List.insertionSort` with this non-strict
ordering reproduces exactly (ties keep their original relative order). -/
def gainerRel (a b : EnrichedTicker) : Prop :=
  toQ b.priceChangePercent ≤ toQ a.priceChangePercent

instance : DecidableRel gainerRel := fun a b =>
  inferInstanceAs (Decidable (toQ b.priceChangePercent ≤ toQ a.priceChangePercent))

instance : IsTotal EnrichedTicker gainerRel :=
  ⟨fun a b => le_total (toQ b.priceChangePercent) (toQ a.priceChangePercent)⟩

instance : IsTrans EnrichedTicker gainerRel :=
  ⟨fun _ _ _ h1 h2 => le_trans h2 h1⟩

/-- `Array.prototype.slice(0, end)`: for a nonnegative `end`, the first `end`
elements; for a negative `end`, everything up to `end` positions from the end
of the array. -/
def jsSlice {α : Type} (l : List α) (limit : Int) : List α :=
  l.take (if 0 ≤ limit then limit.toNat else ((l.length : Int) + limit).toNat)

/-- Embedding of `getTopGainers`:

    analyzedData.filter(item => item.priceChangePercent > 0)
                .sort((a, b) => b.priceChangePercent - a.priceChangePercent)
                .slice(0, limit)
-/
def getTopGainers (analyzedData : List EnrichedTicker) (limit : Int := 5) :
    List EnrichedTicker :=
  jsSlice
    (List.insertionSort gainerRel
      (analyzedData.filter (fun item => jgtb item.priceChangePercent (.num 0))))
    limit

/-- Embedding of `getActiveSignals`: the entries whose signal type is not
`NEUTRAL`, in order. -/
def getActiveSignals (analyzedData : List EnrichedTicker) : List EnrichedTicker :=
  analyzedData.filter (fun item => item.signal.type != SignalType.NEUTRAL)

/-- The lookup in the `Map` that `detectNewSignals` builds over `previousData`
with `previousSignals.set(item.symbol, item.signal.type)` for every non-neutral
entry: a later `set` for the same symbol overwrites an earlier one, so `get`
returns the type of the last non-neutral entry carrying the symbol. -/
def previousSignalFor (previousData : List EnrichedTicker) (symbol : String) :
    Option SignalType :=
  (previousData.reverse.find?
      (fun item => item.signal.type != SignalType.NEUTRAL && item.symbol == symbol)).map
    (fun item => item.signal.type)

/-- Embedding of `detectNewSignals`: on an empty previous set, every active
signal of the current set; otherwise the non-neutral current entries whose
symbol is absent from the previous-signal map or mapped to a different type. -/
def detectNewSignals (previousData currentData : List EnrichedTicker) :
    List EnrichedTicker :=
  if previousData.isEmpty then
    getActiveSignals currentData
  else
    currentData.filter (fun item =>
      item.signal.type != SignalType.NEUTRAL &&
        match previousSignalFor previousData item.symbol with
        | none => true
        | some t => t != item.signal.type)

/-- The observable outcome of one `processData` call: the retained state after
the call (the module-level `previousAnalyzedData` variable) and the three
event payloads, with `newSignalsDetected` present only when the event fires. -/
structure ProcessResult where
  previousAnalyzedData : List EnrichedTicker
  dataAnalyzed : List EnrichedTicker
  topGainersUpdated : List EnrichedTicker
  newSignalsDetected : Option (List EnrichedTicker)
deriving DecidableEq

/-- Embedding of `processData`, with the module-level mutable
`previousAnalyzedData` passed and returned explicitly:

    const analyzedData = analyzeTickerArray(tickerDataArray);
    const newSignals = detectNewSignals(previousAnalyzedData, analyzedData);
    const topGainers = getTopGainers(analyzedData, 5);
    previousAnalyzedData = analyzedData;
    trigger dataAnalyzed, topGainersUpdated; trigger newSignalsDetected
    only if newSignals.length > 0
-/
def processData (previousAnalyzedData : List EnrichedTicker)
    (tickerDataArray : List RawTicker) : ProcessResult :=
  let analyzedData := analyzeTickerArray tickerDataArray
  let newSignals := detectNewSignals previousAnalyzedData analyzedData
  let topGainers := getTopGainers analyzedData 5
  { previousAnalyzedData := analyzedData
    dataAnalyzed := analyzedData
    topGainersUpdated := topGainers
    newSignalsDetected := if newSignals.length > 0 then some newSignals else none }

/-! ### Bridging the executable rational helpers to their Mathlib counterparts -/

theorem qabs_eq (q : ℚ) : qabs q = |q| := by
  unfold qabs
  by_cases h : q < 0
  · rw [if_pos h, abs_of_neg h]
  · rw [if_neg h, abs_of_nonneg (le_of_not_lt h)]

theorem qmin_eq (a b : ℚ) : qmin a b = min a b := by
  unfold qmin
  by_cases h : a ≤ b
  · rw [if_pos h, min_eq_left h]
  · rw [if_neg h, min_eq_right (le_of_not_le h)]

theorem qmax_eq (a b : ℚ) : qmax a b = max a b := by
  unfold qmax
  by_cases h : a ≤ b
  · rw [if_pos h, max_eq_right h]
  · rw [if_neg h, max_eq_left (le_of_not_le h)]

theorem ratFloor_eq (q : ℚ) : q.floor = ⌊q⌋ := by
  rw [Rat.floor_def', Rat.floor_def]

theorem floor_half : ⌊(1/2 : ℚ)⌋ = 0 := by
  rw [Int.floor_eq_zero_iff]
  constructor <;> norm_num

/-- Rounding a value bounded above by an integer stays below that integer. -/
theorem roundHalf_le {x : ℚ} {n : ℤ} (h : x ≤ (n : ℚ)) : ⌊x + 1/2⌋ ≤ n := by
  have h1 : ⌊x + 1/2⌋ ≤ ⌊(1/2 : ℚ) + (n : ℚ)⌋ := Int.floor_mono (by linarith)
  rwa [Int.floor_add_int, floor_half, zero_add] at h1

/-- Rounding a value bounded below by an integer stays above that integer. -/
theorem le_roundHalf {x : ℚ} {n : ℤ} (h : (n : ℚ) ≤ x) : n ≤ ⌊x + 1/2⌋ :=
  Int.le_floor.2 (by linarith)

/-- Rounding is monotone. -/
theorem roundHalf_mono {x y : ℚ} (h : x ≤ y) : ⌊x + 1/2⌋ ≤ ⌊y + 1/2⌋ :=
  Int.floor_mono (by linarith)

/-- Rounding an integer plus one half lands on that integer (half rounds up,
matching `Math.round`). -/
theorem roundHalf_intCast (n : ℤ) : ⌊((n : ℚ)) + 1/2⌋ = n := by
  rw [show ((n : ℚ)) + 1/2 = (1/2 : ℚ) + (n : ℚ) by ring, Int.floor_add_int,
    floor_half, zero_add]

/-- Branch-level evaluation of `calculateVolatilityScore` on a numeric input,
with the executable helpers replaced by their mathematical counterparts. -/
theorem calcVol_num (q : ℚ) :
    calculateVolatilityScore (.num q) =
      if 5 ≤ |q| then
        ⟨.num (min 100 (max 0 (min 100 ((⌊|q| / 10 * 100 + 1/2⌋ : ℤ) : ℚ)))), .high⟩
      else if 2 ≤ |q| then
        ⟨.num (min 100 (max 0 ((⌊|q| / 5 * 70 + 1/2⌋ : ℤ) : ℚ))), .medium⟩
      else
        ⟨.num (min 100 (max 0 ((⌊|q| / 2 * 30 + 1/2⌋ : ℤ) : ℚ))), .low⟩ := by
  simp only [calculateVolatilityScore, jabs, jgeb, jdiv, jmul, jround, jmin, jmax,
    VOLATILITY_HIGH_THRESHOLD, VOLATILITY_MEDIUM_THRESHOLD, qabs_eq, qmin_eq, qmax_eq,
    ratFloor_eq, decide_eq_true_eq]
  split_ifs <;> rfl

/-- JavaScript `x > c` for a numeric constant holds iff `x` is numeric and
strictly above `c`; NaN fails the comparison. -/
theorem jgtb_num_iff (x : JSNum) (c : ℚ) :
    jgtb x (.num c) = true ↔ ∃ p, x = .num p ∧ c < p := by
  cases x with
  | nan => simp [jgtb, jltb]
  | num a => simp [jgtb, jltb]

/-- JavaScript `x < c` for a numeric constant holds iff `x` is numeric and
strictly below `c`; NaN fails the comparison. -/
theorem jltb_num_iff (x : JSNum) (c : ℚ) :
    jltb x (.num c) = true ↔ ∃ p, x = .num p ∧ p < c := by
  cases x with
  | nan => simp [jltb]
  | num a => simp [jltb]

/-- C5: `detectSignal` returns WHALE_ACTIVITY with priority `high` iff
`priceChangePercent > 3` and `quoteVolume > 1000000` (strict comparisons, so a
NaN operand fails them); otherwise PANIC_SELL with priority `high` iff
`priceChangePercent < -3`; otherwise NEUTRAL with priority `low`; in
particular a NaN `priceChangePercent` always yields NEUTRAL. -/
theorem claim_C5 (t : RawTicker) :
    (detectSignal t = ⟨.WHALE_ACTIVITY, "WHALE ACTIVITY - Strong Buy Signal", "high"⟩ ↔
      ((∃ p, t.priceChangePercent = .num p ∧ 3 < p) ∧
       (∃ v, t.quoteVolume = .num v ∧ 1000000 < v))) ∧
    (detectSignal t = ⟨.PANIC_SELL, "PANIC SELL - Market Downturn", "high"⟩ ↔
      (¬((∃ p, t.priceChangePercent = .num p ∧ 3 < p) ∧
         (∃ v, t.quoteVolume = .num v ∧ 1000000 < v)) ∧
       (∃ p, t.priceChangePercent = .num p ∧ p < -3))) ∧
    (detectSignal t = ⟨.NEUTRAL, "Normal Market Activity", "low"⟩ ↔
      (¬((∃ p, t.priceChangePercent = .num p ∧ 3 < p) ∧
         (∃ v, t.quoteVolume = .num v ∧ 1000000 < v)) ∧
       ¬(∃ p, t.priceChangePercent = .num p ∧ p < -3))) ∧
    (t.priceChangePercent = .nan →
      detectSignal t = ⟨.NEUTRAL, "Normal Market Activity", "low"⟩) := by
  have hw : (jgtb t.priceChangePercent WHALE_THRESHOLD_PRICE_CHANGE &&
      jgtb t.quoteVolume WHALE_THRESHOLD_VOLUME) = true ↔
      ((∃ p, t.priceChangePercent = .num p ∧ 3 < p) ∧
       (∃ v, t.quoteVolume = .num v ∧ 1000000 < v)) := by
    rw [Bool.and_eq_true]
    exact and_congr (jgtb_num_iff t.priceChangePercent 3)
      (jgtb_num_iff t.quoteVolume 1000000)
  have hp : jltb t.priceChangePercent PANIC_THRESHOLD_PRICE_CHANGE = true ↔
      (∃ p, t.priceChangePercent = .num p ∧ p < -3) :=
    jltb_num_iff t.priceChangePercent (-3)
  unfold detectSignal
  dsimp only
  split_ifs with h1 h2
  · exact ⟨iff_of_true rfl (hw.1 h1),
      iff_of_false (by simp) (fun hc => hc.1 (hw.1 h1)),
      iff_of_false (by simp) (fun hc => hc.1 (hw.1 h1)),
      fun hnan => absurd (hw.1 h1).1 (by rw [hnan]; rintro ⟨p, hp', _⟩; cases hp')⟩
  · exact ⟨iff_of_false (by simp) (fun hc => h1 (hw.2 hc)),
      iff_of_true rfl ⟨fun hc => h1 (hw.2 hc), hp.1 h2⟩,
      iff_of_false (by simp) (fun hc => hc.2 (hp.1 h2)),
      fun hnan => absurd (hp.1 h2) (by rw [hnan]; rintro ⟨p, hp', _⟩; cases hp')⟩
  · exact ⟨iff_of_false (by simp) (fun hc => h1 (hw.2 hc)),
      iff_of_false (by simp) (fun hc => h2 (hp.2 hc.2)),
      iff_of_true rfl ⟨fun hc => h1 (hw.2 hc), fun hc => h2 (hp.2 hc)⟩,
      fun _ => rfl⟩

/-- C5 witness: at a concrete all-NaN ticker the NaN clause of `claim_C5`
applies and yields the NEUTRAL result. -/
theorem claim_C5_witness :
    (RawTicker.priceChangePercent ⟨"X", .nan, .nan, .nan, .nan, .nan, .nan, .nan⟩ = .nan) ∧
    detectSignal ⟨"X", .nan, .nan, .nan, .nan, .nan, .nan, .nan⟩ =
      ⟨.NEUTRAL, "Normal Market Activity", "low"⟩ :=
  ⟨rfl, (claim_C5 ⟨"X", .nan, .nan, .nan, .nan, .nan, .nan, .nan⟩).2.2.2 rfl⟩

/-- C1 counterexample: on NaN input the clamp `Math.min(100, Math.max(0, score))`
propagates NaN, so `calculateVolatilityScore` returns score NaN, not 0. -/
theorem claim_C1_cex :
    (calculateVolatilityScore .nan).score = .nan ∧
    (calculateVolatilityScore .nan).score ≠ .num 0 := by decide

/-- C1 (amended): for every numeric input the score is an integer in [0, 100];
on NaN input the level is `low` but the score is NaN (the clamp propagates NaN
rather than resolving it to 0). -/
theorem claim_C1 :
    (∀ q : ℚ, ∃ n : ℤ, (calculateVolatilityScore (.num q)).score = .num ((n : ℤ) : ℚ) ∧
        0 ≤ n ∧ n ≤ 100) ∧
    calculateVolatilityScore .nan = ⟨.nan, .low⟩ := by
  refine ⟨fun q => ?_, by decide⟩
  rw [calcVol_num]
  split_ifs with h1 h2
  · refine ⟨min 100 (max 0 (min 100 ⌊|q| / 10 * 100 + 1/2⌋)), ?_,
      le_min (by norm_num) (le_max_left _ _), min_le_left _ _⟩
    show JSNum.num _ = JSNum.num _
    norm_cast
  · refine ⟨min 100 (max 0 ⌊|q| / 5 * 70 + 1/2⌋), ?_,
      le_min (by norm_num) (le_max_left _ _), min_le_left _ _⟩
    show JSNum.num _ = JSNum.num _
    norm_cast
  · refine ⟨min 100 (max 0 ⌊|q| / 2 * 30 + 1/2⌋), ?_,
      le_min (by norm_num) (le_max_left _ _), min_le_left _ _⟩
    show JSNum.num _ = JSNum.num _
    norm_cast

/-- C10: the volatility score is not monotone in the absolute price change
across the medium/high band boundary: 4.99 (medium band) scores 70 while 5.0
(high band) scores only 50. -/
theorem claim_C10 :
    |(499/100 : ℚ)| < |(5 : ℚ)| ∧
    calculateVolatilityScore (.num (499/100)) = ⟨.num 70, .medium⟩ ∧
    calculateVolatilityScore (.num 5) = ⟨.num 50, .high⟩ ∧
    (50 : ℚ) < 70 :=
  ⟨by rw [abs_of_nonneg (by norm_num : (0:ℚ) ≤ 499/100),
        abs_of_nonneg (by norm_num : (0:ℚ) ≤ 5)]; norm_num,
   by with_unfolding_all rfl, by with_unfolding_all rfl, by norm_num⟩

/-- C8: processing an empty snapshot is valid and yields the empty analyzed
set, the empty top-gainers list and no new-signals event; and whenever the
new-signals event does fire its payload is the (non-empty) diff sequence. -/
theorem claim_C8 :
    (∀ s, processData s [] = ⟨[], [], [], none⟩) ∧
    (∀ s raw newSignals,
      (processData s raw).newSignalsDetected = some newSignals →
        newSignals ≠ [] ∧
        newSignals = detectNewSignals s (analyzeTickerArray raw)) := by
  constructor
  · intro s
    cases s <;> rfl
  · intro s raw newSignals h
    simp only [processData] at h
    split at h
    · cases h
      exact ⟨List.length_pos.1 (by assumption), rfl⟩
    · cases h

/-- A concrete whale-signal raw ticker used by the concrete instantiations. -/
def whaleTicker : RawTicker :=
  ⟨"BTCUSDT", .num 1, .num 1, .num 4, .num 1, .num 2000000, .num 1, .num 1⟩

/-- C8 witness: on a first snapshot holding one whale-signal ticker, the
new-signals event fires with exactly that analyzed entry. -/
theorem claim_C8_witness :
    (processData [] [whaleTicker]).newSignalsDetected = some [analyzeTicker whaleTicker] ∧
    ([analyzeTicker whaleTicker] ≠ [] ∧
      [analyzeTicker whaleTicker] = detectNewSignals [] (analyzeTickerArray [whaleTicker])) :=
  ⟨rfl, claim_C8.2 [] [whaleTicker] [analyzeTicker whaleTicker] rfl⟩

/-- C9: processing an empty snapshot resets the retained previous set to
empty, so the immediately following `processData` call diffs against the
empty set and reports every non-NEUTRAL entry of its snapshot as new. -/
theorem claim_C9 (s : List EnrichedTicker) (raw : List RawTicker) :
    (processData s []).previousAnalyzedData = [] ∧
    detectNewSignals (processData s []).previousAnalyzedData (analyzeTickerArray raw) =
      getActiveSignals (analyzeTickerArray raw) ∧
    (processData (processData s []).previousAnalyzedData raw).newSignalsDetected =
      (if (getActiveSignals (analyzeTickerArray raw)).length > 0 then
        some (getActiveSignals (analyzeTickerArray raw)) else none) := by
  have h1 : (processData s []).previousAnalyzedData = [] := by
    cases s <;> rfl
  refine ⟨h1, ?_, ?_⟩
  · rw [h1]
    rfl
  · rw [h1]
    rfl

/-- High band of `calculateVolatilityScore`: the computed
`min(100, round(a/10*100))` (after clamping) equals the specified
`round(min(100, a/10*100))`. -/
theorem calcVol_high {p : ℚ} (h : 5 ≤ |p|) :
    calculateVolatilityScore (.num p) =
      ⟨.num ((⌊min 100 (|p| / 10 * 100) + 1/2⌋ : ℤ) : ℚ), .high⟩ := by
  rw [calcVol_num, if_pos h]
  simp only [VolatilityResult.mk.injEq, JSNum.num.injEq, and_true]
  have hx : |p| / 10 * 100 = 10 * |p| := by ring
  have h50 : ((50 : ℤ) : ℚ) ≤ |p| / 10 * 100 := by rw [hx]; push_cast; linarith
  have hf50 : (50 : ℤ) ≤ ⌊|p| / 10 * 100 + 1/2⌋ := le_roundHalf h50
  by_cases hle : |p| / 10 * 100 ≤ ((100 : ℤ) : ℚ)
  · have hf100 : ⌊|p| / 10 * 100 + 1/2⌋ ≤ 100 := roundHalf_le hle
    rw [min_eq_right (show ((⌊|p| / 10 * 100 + 1/2⌋ : ℤ) : ℚ) ≤ 100 from by
        exact_mod_cast hf100),
      max_eq_right (show (0 : ℚ) ≤ ((⌊|p| / 10 * 100 + 1/2⌋ : ℤ) : ℚ) from by
        exact_mod_cast le_trans (by norm_num) hf50),
      min_eq_right (show ((⌊|p| / 10 * 100 + 1/2⌋ : ℤ) : ℚ) ≤ 100 from by
        exact_mod_cast hf100),
      min_eq_right (show |p| / 10 * 100 ≤ (100 : ℚ) from by exact_mod_cast hle)]
  · have hgt : ((100 : ℤ) : ℚ) ≤ |p| / 10 * 100 := le_of_lt (lt_of_not_le hle)
    have hf100 : (100 : ℤ) ≤ ⌊|p| / 10 * 100 + 1/2⌋ := le_roundHalf hgt
    rw [min_eq_left (show (100 : ℚ) ≤ ((⌊|p| / 10 * 100 + 1/2⌋ : ℤ) : ℚ) from by
        exact_mod_cast hf100),
      max_eq_right (show (0 : ℚ) ≤ (100 : ℚ) from by norm_num),
      min_self,
      min_eq_left (show (100 : ℚ) ≤ |p| / 10 * 100 from by exact_mod_cast hgt)]
    rw [show (100 : ℚ) = ((100 : ℤ) : ℚ) from by norm_num, roundHalf_intCast]

/-- Medium band of `calculateVolatilityScore`: the clamp is a no-op because
`round(a/5*70)` already lies in `[28, 70]`. -/
theorem calcVol_medium {p : ℚ} (h2 : 2 ≤ |p|) (h5 : |p| < 5) :
    calculateVolatilityScore (.num p) =
      ⟨.num ((⌊|p| / 5 * 70 + 1/2⌋ : ℤ) : ℚ), .medium⟩ := by
  rw [calcVol_num, if_neg (not_le.2 h5), if_pos h2]
  simp only [VolatilityResult.mk.injEq, JSNum.num.injEq, and_true]
  have hx : |p| / 5 * 70 = 14 * |p| := by ring
  have h28 : ((28 : ℤ) : ℚ) ≤ |p| / 5 * 70 := by rw [hx]; push_cast; linarith
  have h70 : |p| / 5 * 70 ≤ ((70 : ℤ) : ℚ) := by rw [hx]; push_cast; linarith
  have hf1 : (28 : ℤ) ≤ ⌊|p| / 5 * 70 + 1/2⌋ := le_roundHalf h28
  have hf2 : ⌊|p| / 5 * 70 + 1/2⌋ ≤ 70 := roundHalf_le h70
  rw [max_eq_right (show (0 : ℚ) ≤ ((⌊|p| / 5 * 70 + 1/2⌋ : ℤ) : ℚ) from by
      exact_mod_cast le_trans (by norm_num) hf1),
    min_eq_right (show ((⌊|p| / 5 * 70 + 1/2⌋ : ℤ) : ℚ) ≤ 100 from by
      exact_mod_cast le_trans hf2 (by norm_num))]

/-- Low band of `calculateVolatilityScore`: the clamp is a no-op because
`round(a/2*30)` already lies in `[0, 30]`. -/
theorem calcVol_low {p : ℚ} (h : |p| < 2) :
    calculateVolatilityScore (.num p) =
      ⟨.num ((⌊|p| / 2 * 30 + 1/2⌋ : ℤ) : ℚ), .low⟩ ∧
    (0 : ℤ) ≤ ⌊|p| / 2 * 30 + 1/2⌋ ∧ ⌊|p| / 2 * 30 + 1/2⌋ ≤ 30 := by
  have ha : (0 : ℚ) ≤ |p| := abs_nonneg p
  have hx : |p| / 2 * 30 = 15 * |p| := by ring
  have h0 : ((0 : ℤ) : ℚ) ≤ |p| / 2 * 30 := by rw [hx]; push_cast; linarith
  have h30 : |p| / 2 * 30 ≤ ((30 : ℤ) : ℚ) := by rw [hx]; push_cast; linarith
  have hf1 : (0 : ℤ) ≤ ⌊|p| / 2 * 30 + 1/2⌋ := le_roundHalf h0
  have hf2 : ⌊|p| / 2 * 30 + 1/2⌋ ≤ 30 := roundHalf_le h30
  refine ⟨?_, hf1, hf2⟩
  rw [calcVol_num, if_neg (not_le.2 (lt_of_lt_of_le h (by norm_num))),
    if_neg (not_le.2 h)]
  simp only [VolatilityResult.mk.injEq, JSNum.num.injEq, and_true]
  rw [max_eq_right (show (0 : ℚ) ≤ ((⌊|p| / 2 * 30 + 1/2⌋ : ℤ) : ℚ) from by
      exact_mod_cast hf1),
    min_eq_right (show ((⌊|p| / 2 * 30 + 1/2⌋ : ℤ) : ℚ) ≤ 100 from by
      exact_mod_cast le_trans hf2 (by norm_num))]

/-- C6: on numeric input with `absChange = |p|` the three volatility bands
behave as specified: `absChange >= 5` gives level `high` and score
`round(min(100, absChange/10*100))` (saturating at 100 once `absChange >= 50`);
`2 <= absChange < 5` gives level `medium` and score `round(absChange/5*70)`;
`absChange < 2` gives level `low`, score `round(absChange/2*30)` within
`[0, 30]`, monotonically non-decreasing in `absChange`.  (`qabs` is the
absolute value: `qabs_eq`.) -/
theorem claim_C6 (p q : ℚ) :
    (5 ≤ qabs p →
        (calculateVolatilityScore (.num p)).level = .high ∧
        (calculateVolatilityScore (.num p)).score =
          .num ((⌊min 100 (qabs p / 10 * 100) + 1/2⌋ : ℤ) : ℚ)) ∧
    (50 ≤ qabs p → (calculateVolatilityScore (.num p)).score = .num 100) ∧
    (2 ≤ qabs p → qabs p < 5 →
        (calculateVolatilityScore (.num p)).level = .medium ∧
        (calculateVolatilityScore (.num p)).score =
          .num ((⌊qabs p / 5 * 70 + 1/2⌋ : ℤ) : ℚ)) ∧
    (qabs p < 2 →
        (calculateVolatilityScore (.num p)).level = .low ∧
        (calculateVolatilityScore (.num p)).score =
          .num ((⌊qabs p / 2 * 30 + 1/2⌋ : ℤ) : ℚ) ∧
        (0 : ℤ) ≤ ⌊qabs p / 2 * 30 + 1/2⌋ ∧ ⌊qabs p / 2 * 30 + 1/2⌋ ≤ 30) ∧
    (qabs p ≤ qabs q → qabs q < 2 →
        ∃ sp sq : ℤ,
          (calculateVolatilityScore (.num p)).score = .num ((sp : ℤ) : ℚ) ∧
          (calculateVolatilityScore (.num q)).score = .num ((sq : ℤ) : ℚ) ∧
          sp ≤ sq) := by
  rw [qabs_eq, qabs_eq]
  refine ⟨fun h => ?_, fun h => ?_, fun h2 h5 => ?_, fun h => ?_, fun hpq h2 => ?_⟩
  · rw [calcVol_high h]
    exact ⟨rfl, rfl⟩
  · rw [calcVol_high (by linarith)]
    have hx : |p| / 10 * 100 = 10 * |p| := by ring
    have hgt : (100 : ℚ) ≤ |p| / 10 * 100 := by rw [hx]; linarith
    simp only
    rw [min_eq_left hgt, show (100 : ℚ) = ((100 : ℤ) : ℚ) from by norm_num,
      roundHalf_intCast]
  · rw [calcVol_medium h2 h5]
    exact ⟨rfl, rfl⟩
  · rw [(calcVol_low h).1]
    exact ⟨rfl, rfl, (calcVol_low h).2⟩
  · have hp2 : |p| < 2 := lt_of_le_of_lt hpq h2
    refine ⟨⌊|p| / 2 * 30 + 1/2⌋, ⌊|q| / 2 * 30 + 1/2⌋, ?_, ?_, ?_⟩
    · rw [(calcVol_low hp2).1]
    · rw [(calcVol_low h2).1]
    · refine roundHalf_mono ?_
      have e1 : |p| / 2 * 30 = 15 * |p| := by ring
      have e2 : |q| / 2 * 30 = 15 * |q| := by ring
      rw [e1, e2]
      linarith

/-- C6 witness: `claim_C6` instantiated in each band — 6 in the high band
(level `high`), 55 saturating at score 100, 3 in the medium band, 1 in the low
band, and the monotonicity clause at the pair (0, 1). -/
theorem claim_C6_witness :
    ((5 : ℚ) ≤ qabs 6 ∧ (calculateVolatilityScore (.num 6)).level = .high) ∧
    ((50 : ℚ) ≤ qabs 55 ∧ (calculateVolatilityScore (.num 55)).score = .num 100) ∧
    ((2 : ℚ) ≤ qabs 3 ∧ qabs 3 < 5 ∧
      (calculateVolatilityScore (.num 3)).level = .medium) ∧
    (qabs 1 < 2 ∧ (calculateVolatilityScore (.num 1)).level = .low) ∧
    (qabs 0 ≤ qabs 1 ∧ qabs 1 < 2 ∧
      ∃ sp sq : ℤ,
        (calculateVolatilityScore (.num 0)).score = .num ((sp : ℤ) : ℚ) ∧
        (calculateVolatilityScore (.num 1)).score = .num ((sq : ℤ) : ℚ) ∧
        sp ≤ sq) :=
  ⟨⟨by decide, ((claim_C6 6 0).1 (by decide)).1⟩,
   ⟨by decide, (claim_C6 55 0).2.1 (by decide)⟩,
   ⟨by decide, by decide, ((claim_C6 3 0).2.2.1 (by decide) (by decide)).1⟩,
   ⟨by decide, ((claim_C6 1 0).2.2.2.1 (by decide)).1⟩,
   ⟨by decide, by decide, (claim_C6 0 1).2.2.2.2 (by decide) (by decide)⟩⟩

/-- If the pattern does not occur in `s`, `replaceFirst` leaves `s` unchanged. -/
theorem replaceFirst_not_occurring {pat s : List Char} (h : ¬ pat <:+: s) :
    replaceFirst pat s = s := by
  induction s with
  | nil => rfl
  | cons c rest ih =>
    have hp : ¬ (pat.isPrefixOf (c :: rest) = true) := fun hp =>
      h (List.infix_cons_iff.2 (Or.inl (List.isPrefixOf_iff_prefix.1 hp)))
    rw [replaceFirst, if_neg hp, ih (fun hi => h (List.infix_cons_iff.2 (Or.inr hi)))]

/-- If the (non-empty) pattern occurs in `s`, `replaceFirst` removes exactly
its leftmost occurrence. -/
theorem replaceFirst_first_occurrence {pat s : List Char} (hne : pat ≠ [])
    (h : pat <:+: s) :
    ∃ pre post, s = pre ++ pat ++ post ∧ replaceFirst pat s = pre ++ post ∧
      ∀ pre' post', s = pre' ++ pat ++ post' → pre.length ≤ pre'.length := by
  induction s with
  | nil =>
    exfalso
    rcases h with ⟨t1, t2, he⟩
    rcases List.append_eq_nil.1 he with ⟨he1, he2⟩
    exact hne (List.append_eq_nil.1 he1).2
  | cons c rest ih =>
    by_cases hp : pat.isPrefixOf (c :: rest) = true
    · refine ⟨[], (c :: rest).drop pat.length, ?_, ?_, fun pre' post' _ => by simp⟩
      · have hpre := List.prefix_iff_eq_append.1 (List.isPrefixOf_iff_prefix.1 hp)
        simpa using hpre.symm
      · rw [replaceFirst, if_pos hp]
        rfl
    · have hi : pat <:+: rest := by
        rcases List.infix_cons_iff.1 h with hpre | hi
        · exact absurd (List.isPrefixOf_iff_prefix.2 hpre) hp
        · exact hi
      obtain ⟨pre, post, he, hrw, hmin⟩ := ih hi
      refine ⟨c :: pre, post, by simpa using he, ?_, ?_⟩
      · rw [replaceFirst, if_neg hp, hrw]
        rfl
      · intro pre' post' he'
        cases pre' with
        | nil =>
          exact absurd (List.isPrefixOf_iff_prefix.2 ⟨post', by simpa using he'.symm⟩) hp
        | cons c' pre'' =>
          injection he' with h1 h2
          have := hmin pre'' post' h2
          simp only [List.length_cons]
          omega

/-- A raw ticker carrying a given symbol and numeric 1 in every other field,
for concrete instantiations. -/
def tickerWithSymbol (sym : String) : RawTicker :=
  ⟨sym, .num 1, .num 1, .num 1, .num 1, .num 1, .num 1, .num 1⟩

/-- C2 counterexample: `"USDTTRY"` does not end with `"USDT"`, yet
`analyzeTicker` does not leave it unchanged: `replace('USDT','')` removes the
leading occurrence and yields baseAsset `"TRY"`. -/
theorem claim_C2_cex :
    ¬ ("USDT".toList <:+ "USDTTRY".toList) ∧
    (analyzeTicker (tickerWithSymbol "USDTTRY")).baseAsset = "TRY" ∧
    (analyzeTicker (tickerWithSymbol "USDTTRY")).baseAsset ≠ "USDTTRY" :=
  ⟨by decide, by decide, by decide⟩

/-- C2 (amended): `analyzeTicker` derives `baseAsset` by removing the first
(leftmost) occurrence of `"USDT"` anywhere in `symbol`; when `"USDT"` does not
occur as a substring, `baseAsset` equals `symbol` unchanged. -/
theorem claim_C2 (t : RawTicker) :
    (¬ ("USDT".toList <:+: t.symbol.toList) → (analyzeTicker t).baseAsset = t.symbol) ∧
    (("USDT".toList <:+: t.symbol.toList) →
      ∃ pre post, t.symbol.toList = pre ++ "USDT".toList ++ post ∧
        (analyzeTicker t).baseAsset.toList = pre ++ post ∧
        ∀ pre' post', t.symbol.toList = pre' ++ "USDT".toList ++ post' →
          pre.length ≤ pre'.length) := by
  constructor
  · intro h
    show (replaceFirst "USDT".toList t.symbol.toList).asString = t.symbol
    rw [replaceFirst_not_occurring h, String.asString_toList]
  · intro h
    obtain ⟨pre, post, he, hrw, hmin⟩ :=
      replaceFirst_first_occurrence (by decide) h
    refine ⟨pre, post, he, ?_, hmin⟩
    show (replaceFirst "USDT".toList t.symbol.toList).asString.toList = pre ++ post
    rw [List.toList_asString, hrw]

/-- C2 witness: on symbol `"BTCETH"`, which does not contain `"USDT"`,
`claim_C2` yields the unchanged baseAsset. -/
theorem claim_C2_witness :
    ¬ ("USDT".toList <:+: "BTCETH".toList) ∧
    (analyzeTicker (tickerWithSymbol "BTCETH")).baseAsset = "BTCETH" :=
  ⟨by decide, (claim_C2 (tickerWithSymbol "BTCETH")).1 (by decide)⟩

/-- A raw ticker with +7% change, for concrete ranking instantiations. -/
def rawGainer7 : RawTicker :=
  ⟨"AAAUSDT", .num 1, .num 1, .num 7, .num 1, .num 1, .num 1, .num 1⟩

/-- A raw ticker with +2% change, for concrete ranking instantiations. -/
def rawGainer2 : RawTicker :=
  ⟨"BBBUSDT", .num 1, .num 1, .num 2, .num 1, .num 1, .num 1, .num 1⟩

/-- C3 counterexample: a negative limit is not rejected anywhere — there is no
construction/configuration stage, and `getTopGainers` runs normally with
limit -1, applying JavaScript `slice` negative-index semantics. -/
theorem claim_C3_cex :
    (-1 : ℤ) < 0 ∧
    getTopGainers [analyzeTicker rawGainer2, analyzeTicker rawGainer7] (-1) =
      [analyzeTicker rawGainer7] :=
  ⟨by decide, rfl⟩

/-- C3 (amended): a negative rank limit is never rejected: `getTopGainers`
accepts it and, per `slice(0, limit)` semantics, returns the filtered, sorted
gainers with the last `|limit|` entries dropped; `processData` itself always
ranks with the fixed limit 5. -/
theorem claim_C3 :
    (∀ (d : List EnrichedTicker) (lim : ℤ), lim < 0 →
      getTopGainers d lim =
        (List.insertionSort gainerRel
            (d.filter (fun item => jgtb item.priceChangePercent (.num 0)))).take
          ((d.filter (fun item => jgtb item.priceChangePercent (.num 0))).length -
            (-lim).toNat)) ∧
    (∀ s raw, (processData s raw).topGainersUpdated =
      getTopGainers (analyzeTickerArray raw) 5) := by
  constructor
  · intro d lim hlim
    unfold getTopGainers jsSlice
    rw [if_neg (not_le.2 hlim)]
    congr 1
    rw [List.length_insertionSort]
    omega
  · intro s raw
    rfl

/-- C3 witness: `claim_C3` at the empty set and limit -1. -/
theorem claim_C3_witness :
    (-1 : ℤ) < 0 ∧
    getTopGainers [] (-1) =
      (List.insertionSort gainerRel
          (List.filter (fun item => jgtb item.priceChangePercent (.num 0)) [])).take
        ((List.filter (fun item => jgtb item.priceChangePercent (.num 0))
            ([] : List EnrichedTicker)).length - (-(-1 : ℤ)).toNat) :=
  ⟨by decide, claim_C3.1 [] (-1) (by decide)⟩

/-- Filtering an `orderedInsert` to the entries carrying one sort key: the
inserted element lands in front exactly when it carries that key, because
`orderedInsert` only walks past strictly greater keys. -/
theorem filter_key_orderedInsert (k : ℚ) (a : EnrichedTicker)
    (l : List EnrichedTicker) :
    (l.orderedInsert gainerRel a).filter (fun x => toQ x.priceChangePercent == k) =
      if (toQ a.priceChangePercent == k) = true then
        a :: l.filter (fun x => toQ x.priceChangePercent == k)
      else l.filter (fun x => toQ x.priceChangePercent == k) := by
  induction l with
  | nil =>
    rw [List.orderedInsert_nil, List.filter_cons]
  | cons b t ih =>
    by_cases hr : gainerRel a b
    · rw [List.orderedInsert, if_pos hr, List.filter_cons]
    · rw [List.orderedInsert, if_neg hr, List.filter_cons, ih]
      by_cases hk : (toQ a.priceChangePercent == k) = true
      · have hak : toQ a.priceChangePercent = k := beq_iff_eq.1 hk
        have hlt : toQ a.priceChangePercent < toQ b.priceChangePercent := not_le.1 hr
        have hkb : (toQ b.priceChangePercent == k) = false := by
          rw [beq_eq_false_iff_ne]
          rw [← hak]
          exact (ne_of_gt hlt)
        simp [hk, hkb, List.filter_cons]
      · have hk' : (toQ a.priceChangePercent == k) = false := Bool.eq_false_iff.2 hk
        simp [hk', List.filter_cons]

/-- Stability of the sort used by `getTopGainers`: for every sort key, the
entries carrying that key appear in the sorted output exactly in their
original relative order. -/
theorem filter_key_insertionSort (k : ℚ) (l : List EnrichedTicker) :
    (List.insertionSort gainerRel l).filter (fun x => toQ x.priceChangePercent == k) =
      l.filter (fun x => toQ x.priceChangePercent == k) := by
  induction l with
  | nil => rfl
  | cons a t ih =>
    rw [List.insertionSort, filter_key_orderedInsert, ih, List.filter_cons]

/-- C7: with a nonnegative limit, `getTopGainers` is the first `limit` entries
of a stable descending sort (by `priceChangePercent`) of exactly the strictly
positive gainers: the sorted sequence is a permutation of the filtered one,
pairwise descending, tie classes keep input order, the output length is at
most `limit`, and every output entry is strictly positive. -/
theorem claim_C7 (d : List EnrichedTicker) (lim : ℤ) (h : 0 ≤ lim) :
    getTopGainers d lim =
      (List.insertionSort gainerRel
        (d.filter (fun item => jgtb item.priceChangePercent (.num 0)))).take lim.toNat ∧
    (List.insertionSort gainerRel
        (d.filter (fun item => jgtb item.priceChangePercent (.num 0)))).Perm
      (d.filter (fun item => jgtb item.priceChangePercent (.num 0))) ∧
    (List.insertionSort gainerRel
        (d.filter (fun item => jgtb item.priceChangePercent (.num 0)))).Sorted gainerRel ∧
    (∀ k : ℚ,
      (List.insertionSort gainerRel
          (d.filter (fun item => jgtb item.priceChangePercent (.num 0)))).filter
        (fun x => toQ x.priceChangePercent == k) =
      (d.filter (fun item => jgtb item.priceChangePercent (.num 0))).filter
        (fun x => toQ x.priceChangePercent == k)) ∧
    (getTopGainers d lim).length ≤ lim.toNat ∧
    (∀ x ∈ getTopGainers d lim, jgtb x.priceChangePercent (.num 0) = true) := by
  have he : getTopGainers d lim =
      (List.insertionSort gainerRel
        (d.filter (fun item => jgtb item.priceChangePercent (.num 0)))).take lim.toNat := by
    unfold getTopGainers jsSlice
    rw [if_pos h]
  refine ⟨he, List.perm_insertionSort _ _, List.sorted_insertionSort _ _,
    fun k => filter_key_insertionSort k _, ?_, ?_⟩
  · rw [he, List.length_take]
    exact min_le_left _ _
  · intro x hx
    rw [he] at hx
    have hx2 := List.mem_of_mem_take hx
    have hx3 := (List.perm_insertionSort gainerRel _).subset hx2
    exact (List.mem_filter.1 hx3).2

/-- C7 witness: `claim_C7` at a concrete two-gainer set with limit 5. -/
theorem claim_C7_witness :
    (0 : ℤ) ≤ 5 ∧
    (getTopGainers [analyzeTicker rawGainer2, analyzeTicker rawGainer7] 5).length ≤
      (5 : ℤ).toNat :=
  ⟨by decide,
   (claim_C7 [analyzeTicker rawGainer2, analyzeTicker rawGainer7] 5 (by decide)).2.2.2.2.1⟩

/-- The `Map` lookup inside `detectNewSignals` agrees with the claim-level
"no previous non-neutral entry with this symbol and this type" test, provided
symbols are unique within the previous set (they are a snapshot's keys). -/
theorem newSignal_lookup_eq (prev : List EnrichedTicker) (item : EnrichedTicker)
    (h : (prev.map (fun it => it.symbol)).Nodup)
    (hn : item.signal.type ≠ SignalType.NEUTRAL) :
    (match previousSignalFor prev item.symbol with
      | none => true
      | some t => t != item.signal.type) =
    prev.all (fun p =>
      !(p.symbol == item.symbol && p.signal.type == item.signal.type)) := by
  cases hf : previousSignalFor prev item.symbol with
  | none =>
    have hfind : prev.reverse.find?
        (fun it => it.signal.type != SignalType.NEUTRAL &&
          it.symbol == item.symbol) = none :=
      Option.map_eq_none'.1 hf
    have hnone := List.find?_eq_none.1 hfind
    symm
    rw [List.all_eq_true]
    intro p hp
    rw [Bool.not_eq_true']
    cases hb : (p.symbol == item.symbol && p.signal.type == item.signal.type) with
    | false => rfl
    | true =>
      exfalso
      rw [Bool.and_eq_true] at hb
      have hps : p.symbol = item.symbol := beq_iff_eq.1 hb.1
      have hpt : p.signal.type = item.signal.type := beq_iff_eq.1 hb.2
      refine hnone p (List.mem_reverse.2 hp) ?_
      rw [Bool.and_eq_true]
      exact ⟨bne_iff_ne.2 (hpt ▸ hn), beq_iff_eq.2 hps⟩
  | some t =>
    obtain ⟨q, hq, hqt⟩ := Option.map_eq_some'.1 hf
    have hqp := List.find?_some hq
    have hqm : q ∈ prev := List.mem_reverse.1 (List.mem_of_find?_eq_some hq)
    rw [Bool.and_eq_true] at hqp
    have hqs : q.symbol = item.symbol := beq_iff_eq.1 hqp.2
    dsimp only
    by_cases htq : t = item.signal.type
    · have hl : (t != item.signal.type) = false := by
        rw [htq]
        exact bne_self_eq_false _
      rw [hl]
      symm
      rw [Bool.eq_false_iff]
      intro hall
      have hone := List.all_eq_true.1 hall q hqm
      simp [hqs, hqt, htq] at hone
    · have hl : (t != item.signal.type) = true := bne_iff_ne.2 htq
      rw [hl]
      symm
      rw [List.all_eq_true]
      intro p hp
      rw [Bool.not_eq_true']
      cases hb : (p.symbol == item.symbol && p.signal.type == item.signal.type) with
      | false => rfl
      | true =>
        exfalso
        rw [Bool.and_eq_true] at hb
        have hps : p.symbol = item.symbol := beq_iff_eq.1 hb.1
        have hpt : p.signal.type = item.signal.type := beq_iff_eq.1 hb.2
        have hpq : p = q :=
          List.inj_on_of_nodup_map h hp hqm (by rw [hps, hqs])
        exact htq (by rw [← hqt, ← hpq, hpt])

/-- C4: when symbols are unique in the previous set, `detectNewSignals`
returns exactly the non-NEUTRAL entries of the current set, in current-set
order, whose symbol has no entry of the same (non-NEUTRAL) signal type in the
previous set — covering both the empty-previous-set branch (everything
non-NEUTRAL is new) and the diff branch (absent symbol, or present with a
different type; same type is suppressed). -/
theorem claim_C4 (previousData currentData : List EnrichedTicker)
    (h : (previousData.map (fun item => item.symbol)).Nodup) :
    detectNewSignals previousData currentData =
      currentData.filter (fun item =>
        item.signal.type != SignalType.NEUTRAL &&
          previousData.all (fun p =>
            !(p.symbol == item.symbol && p.signal.type == item.signal.type))) := by
  cases previousData with
  | nil =>
    unfold detectNewSignals getActiveSignals
    rw [if_pos (show ([] : List EnrichedTicker).isEmpty = true from rfl)]
    apply List.filter_congr
    intro x _
    rw [List.all_nil, Bool.and_true]
  | cons p0 prest =>
    unfold detectNewSignals
    rw [if_neg (by simp)]
    apply List.filter_congr
    intro item _
    cases hb : item.signal.type != SignalType.NEUTRAL with
    | false => rw [Bool.false_and, Bool.false_and]
    | true =>
      rw [Bool.true_and, Bool.true_and]
      exact newSignal_lookup_eq (p0 :: prest) item h (bne_iff_ne.1 hb)

/-- C4 witness: `claim_C4` at a previous set and current set holding the same
whale-signal entry; the same non-NEUTRAL type is present on both sides, so
the diff is empty. -/
theorem claim_C4_witness :
    (([analyzeTicker whaleTicker].map (fun item => item.symbol)).Nodup) ∧
    detectNewSignals [analyzeTicker whaleTicker] [analyzeTicker whaleTicker] =
      [analyzeTicker whaleTicker].filter (fun item =>
        item.signal.type != SignalType.NEUTRAL &&
          [analyzeTicker whaleTicker].all (fun p =>
            !(p.symbol == item.symbol && p.signal.type == item.signal.type))) :=
  ⟨by decide, claim_C4 [analyzeTicker whaleTicker] [analyzeTicker whaleTicker] (by decide)⟩
